import Mathlib

/-!
Verification of the batch type-set builder and columnar batch allocator
(`src/batch.rs` of the hecs ECS library).

The source file defines `ColumnBatchType` (a `BinaryHeap<TypeInfo>` of
registered component types) and `ColumnBatch` (a handle wrapping an
`Archetype`).  The `Archetype` storage layer and `TypeInfo` live outside
the provided source; they are modelled here from the specification's
description of the external collaborator (its §3 data model and §6
interface table).

Modelling choices:
* `TypeInfo` carries the stable type identity as a natural number; the
  specification orders descriptors totally by type identity.
* Component values are represented uniformly as natural numbers; a column
  slot is `Option Nat`, with `none` standing for an uninitialized
  (`MaybeUninit`) slot.
* `BinaryHeap<TypeInfo>` is modelled by the list of pushed elements
  (`push` = cons); `into_sorted_vec` sorts that list ascending by the
  descriptor order, which is exactly its contract.
* Rust methods taking `&mut self` but performing no store (like
  `storage_for`) are embedded in state-passing style, returning the
  (unchanged) batch alongside their result, so that absence of mutation
  is a provable statement.
-/

/-- Identifier of one component type.  Modelled from the spec:
"TypeDescriptor — identifies one component type: a stable type identity
...  Descriptors are totally ordered by type identity". -/
structure TypeInfo where
  id : Nat
deriving DecidableEq

/-- The total order on type descriptors, by type identity. -/
def TypeInfo.le (a b : TypeInfo) : Prop := a.id ≤ b.id

instance : DecidableRel TypeInfo.le :=
  fun a b => inferInstanceAs (Decidable (a.id ≤ b.id))

instance : IsTotal TypeInfo TypeInfo.le :=
  ⟨fun a b => Nat.le_total a.id b.id⟩

instance : IsTrans TypeInfo TypeInfo.le :=
  ⟨fun _ _ _ => Nat.le_trans⟩

instance : IsAntisymm TypeInfo TypeInfo.le := by
  constructor
  intro a b h1 h2
  cases a
  cases b
  simp only [TypeInfo.mk.injEq]
  exact Nat.le_antisymm h1 h2

/-- Sorting a multiset of descriptors into the Canonical Type Sequence:
the meaning of `BinaryHeap::into_sorted_vec` (ascending by the
descriptor order). -/
def sortTypes (l : List TypeInfo) : List TypeInfo :=
  List.insertionSort TypeInfo.le l

/-- Modelled from the spec: the external `Archetype` storage collaborator.
"owns one contiguous column buffer per TypeDescriptor in its canonical
sequence, plus a `capacity` (allocated slots per column) and a `length`
(number of slots considered logically initialized/live)."  A column slot
holds `none` while uninitialized.  Columns are keyed by descriptor. -/
structure Archetype where
  types : List TypeInfo
  cap : Nat
  len : Nat
  data : TypeInfo → Nat → Option Nat

/-- Modelled from the spec: constructing an archetype from a Canonical
Type Sequence (`Archetype::new`, the construction side of
`archetype_for`).  A freshly constructed archetype has no allocated
slots: capacity 0, length 0, every slot uninitialized. -/
def Archetype.new (ts : List TypeInfo) : Archetype :=
  { types := ts, cap := 0, len := 0, data := fun _ _ => none }

/-- Modelled from the spec: `capacity` is the number of allocated slots
per column. -/
def Archetype.capacity (a : Archetype) : Nat := a.cap

/-- Modelled from the spec: `reserve(archetype, n)` "grows all columns to
capacity ≥ length+n, preserving existing slot contents".  The growth
policy is an implementation choice; we grow exactly to the contract. -/
def Archetype.reserve (a : Archetype) (n : Nat) : Archetype :=
  { a with cap := max a.cap (a.len + n) }

/-- Modelled from the spec: `column_ptr(archetype, type)` "returns the
base address and capacity of the raw buffer for `type`, or 'absent' if
`type` not in the archetype" (`Archetype::get`).  The buffer is the
column's slot contents. -/
def Archetype.get (a : Archetype) (t : TypeInfo) : Option (Nat → Option Nat) :=
  if t ∈ a.types then some (a.data t) else none

/-- Modelled from the spec: `set_length(archetype, n)` advances the
logical length to `n` (`Archetype::set_len`). -/
def Archetype.set_len (a : Archetype) (n : Nat) : Archetype :=
  { a with len := n }

/-- Modelled from the spec: a caller storing a value into slot `i` of
type `t`'s column buffer (the effect of writing through the raw view
returned by `column_ptr`). -/
def Archetype.writeSlot (a : Archetype) (t : TypeInfo) (i : Nat) (v : Nat) :
    Archetype :=
  { a with
    data := fun t' j => if t' = t ∧ j = i then some v else a.data t' j }

/-- `ColumnBatchType`: a collection of component types, backed by a
`BinaryHeap<TypeInfo>` modelled as the list of pushed descriptors. -/
structure ColumnBatchType where
  types : List TypeInfo

/-- `ColumnBatchType::new`: create an empty type. -/
def ColumnBatchType.new : ColumnBatchType := ⟨[]⟩

/-- `ColumnBatchType::add::<T>`: push `T`'s descriptor onto the heap. -/
def ColumnBatchType.add (c : ColumnBatchType) (t : TypeInfo) : ColumnBatchType :=
  ⟨t :: c.types⟩

/-- `ColumnBatch`: data describing a collection of entities which have
the same set of components; wraps its archetype. -/
structure ColumnBatch where
  archetype : Archetype

/-- `ColumnBatchType::into_batch`: construct a `ColumnBatch` whose
archetype is built from the heap's sorted vector
(`Archetype::new(self.types.into_sorted_vec())`). -/
def ColumnBatchType.into_batch (c : ColumnBatchType) : ColumnBatch :=
  { archetype := Archetype.new (sortTypes c.types) }

/-- `ColumnBatch::new`: create a batch with certain component types. -/
def ColumnBatch.new (ty : ColumnBatchType) : ColumnBatch :=
  ty.into_batch

/-- `ColumnBatch::reserve`: allocate storage for `n` additional
entities. -/
def ColumnBatch.reserve (b : ColumnBatch) (n : Nat) : ColumnBatch :=
  { archetype := b.archetype.reserve n }

/-- `ColumnBatch::storage_for::<T>`: get storage for `T`s, or `None` if
`T` wasn't in the `ColumnBatchType`.  The Rust method takes `&mut self`
but performs no store; we return the resulting batch state alongside the
optional view.  The view, when present, covers `capacity` slots
(`slice::from_raw_parts_mut(base, capacity)`). -/
def ColumnBatch.storage_for (b : ColumnBatch) (t : TypeInfo) :
    Option (List (Option Nat)) × ColumnBatch :=
  match b.archetype.get t with
  | none => (none, b)
  | some col => (some ((List.range b.archetype.capacity).map col), b)

/-- `ColumnBatch::set_len`: indicate that the first `n` entities have
been fully written; delegates to the archetype's length update. -/
def ColumnBatch.set_len (b : ColumnBatch) (n : Nat) : ColumnBatch :=
  { archetype := b.archetype.set_len n }

/-- A caller writing the value `v` into slot `i` of the view returned by
`storage_for t`.  The store happens only when the view exists (`t` is in
the batch) and `i` is within the view's bounds. -/
def ColumnBatch.write (b : ColumnBatch) (t : TypeInfo) (i : Nat) (v : Nat) :
    ColumnBatch :=
  if t ∈ b.archetype.types ∧ i < b.archetype.capacity then
    { archetype := b.archetype.writeSlot t i v }
  else b

/-- Reading slot `i` of type `t`'s column through `storage_for`:
`none` when the view is absent, otherwise the view's entry at `i`
(itself `Option Nat`: `none` while uninitialized). -/
def ColumnBatch.read (b : ColumnBatch) (t : TypeInfo) (i : Nat) :
    Option (Option Nat) :=
  match (b.storage_for t).1 with
  | none => none
  | some view => view[i]?

/-- Registering a whole list of types in order
(`ColumnBatchType::add` called once per element). -/
def addAll (c : ColumnBatchType) (ts : List TypeInfo) : ColumnBatchType :=
  ts.foldl ColumnBatchType.add c

/-- One step of the batch interface, for stating trace properties. -/
inductive BatchOp where
  | reserveOp (n : Nat)
  | getStorage (t : TypeInfo)
  | writeOp (t : TypeInfo) (i : Nat) (v : Nat)
  | setLen (n : Nat)
deriving DecidableEq

/-- Interpreting one interface step on a batch. -/
def BatchOp.apply (b : ColumnBatch) : BatchOp → ColumnBatch
  | .reserveOp n => b.reserve n
  | .getStorage t => (b.storage_for t).2
  | .writeOp t i v => b.write t i v
  | .setLen n => b.set_len n

/-- Running a sequence of interface steps. -/
def runOps (b : ColumnBatch) (ops : List BatchOp) : ColumnBatch :=
  ops.foldl BatchOp.apply b

/-- Whether a step is the length-commit operation. -/
def BatchOp.isSetLen : BatchOp → Bool
  | .setLen _ => true
  | _ => false

/-- A trace discipline: every `setLen n` step is taken only when `n` is
at least the current logical length. -/
def lenMono (b : ColumnBatch) : List BatchOp → Bool
  | [] => true
  | op :: ops =>
    (match op with
     | BatchOp.setLen n => Nat.ble b.archetype.len n
     | _ => true) && lenMono (BatchOp.apply b op) ops

/-- A concrete batch over types 0 and 1 with two reserved slots, both
columns fully written (values 10,11 and 20,21). -/
def batchC1 : ColumnBatch :=
  ((((ColumnBatch.new ((ColumnBatchType.new.add (TypeInfo.mk 0)).add
      (TypeInfo.mk 1))).reserve 2).write (TypeInfo.mk 0) 0 10).write
        (TypeInfo.mk 0) 1 11).write (TypeInfo.mk 1) 0 20 |>.write
          (TypeInfo.mk 1) 1 21

/-- A concrete single-type `ColumnBatchType`. -/
def c6ty : ColumnBatchType := ColumnBatchType.new.add (TypeInfo.mk 0)

/-- First conversion of `c6ty`, then grown by 5 slots. -/
def c6b1 : ColumnBatch := (ColumnBatch.new c6ty).reserve 5

/-- Second conversion of `c6ty`. -/
def c6b2 : ColumnBatch := ColumnBatch.new c6ty

/-- A concrete single-type batch with two reserved slots, both written. -/
def c8b : ColumnBatch :=
  (((ColumnBatch.new (ColumnBatchType.new.add (TypeInfo.mk 0))).reserve
      2).write (TypeInfo.mk 0) 0 5).write (TypeInfo.mk 0) 1 6

/-! ## Basic lemmas about the embedding -/

theorem sortTypes_perm (l : List TypeInfo) : List.Perm (sortTypes l) l :=
  List.perm_insertionSort _ l

theorem sortTypes_sorted (l : List TypeInfo) :
    List.Sorted TypeInfo.le (sortTypes l) :=
  List.sorted_insertionSort _ l

theorem sortTypes_eq_of_perm {l1 l2 : List TypeInfo} (h : List.Perm l1 l2) :
    sortTypes l1 = sortTypes l2 :=
  List.eq_of_perm_of_sorted
    ((sortTypes_perm l1).trans (h.trans (sortTypes_perm l2).symm))
    (sortTypes_sorted l1) (sortTypes_sorted l2)

theorem addAll_types_perm (c : ColumnBatchType) (ts : List TypeInfo) :
    List.Perm (addAll c ts).types (ts ++ c.types) := by
  induction ts generalizing c with
  | nil => simp [addAll]
  | cons t ts ih =>
    have h1 : (addAll c (t :: ts)).types = (addAll (c.add t) ts).types := rfl
    rw [h1]
    have h2 : List.Perm (addAll (c.add t) ts).types (ts ++ (t :: c.types)) := ih (c.add t)
    exact h2.trans List.perm_middle

theorem storage_for_snd (b : ColumnBatch) (t : TypeInfo) :
    (b.storage_for t).2 = b := by
  unfold ColumnBatch.storage_for
  cases b.archetype.get t <;> rfl

theorem storage_for_fst_none_iff (b : ColumnBatch) (t : TypeInfo) :
    (b.storage_for t).1 = none ↔ t ∉ b.archetype.types := by
  by_cases h : t ∈ b.archetype.types <;>
    simp [ColumnBatch.storage_for, Archetype.get, h]

theorem apply_types (b : ColumnBatch) (op : BatchOp) :
    (BatchOp.apply b op).archetype.types = b.archetype.types := by
  cases op with
  | reserveOp n => rfl
  | getStorage t => simp [BatchOp.apply, storage_for_snd]
  | writeOp t i v =>
    simp only [BatchOp.apply, ColumnBatch.write]
    split <;> rfl
  | setLen n => rfl

theorem runOps_types (b : ColumnBatch) (ops : List BatchOp) :
    (runOps b ops).archetype.types = b.archetype.types := by
  induction ops generalizing b with
  | nil => rfl
  | cons op ops ih =>
    have h : runOps b (op :: ops) = runOps (BatchOp.apply b op) ops := rfl
    rw [h, ih, apply_types]

theorem apply_len (b : ColumnBatch) (op : BatchOp)
    (h : op.isSetLen = false) :
    (BatchOp.apply b op).archetype.len = b.archetype.len := by
  cases op with
  | reserveOp n => rfl
  | getStorage t => simp [BatchOp.apply, storage_for_snd]
  | writeOp t i v =>
    simp only [BatchOp.apply, ColumnBatch.write]
    split <;> rfl
  | setLen n => simp [BatchOp.isSetLen] at h

/-! ## Claim theorems -/

/-- C3: for every fixed set of component types and every two registration
orders of that set, the sequence of `ColumnBatchType::add` calls followed
by `into_batch` yields the same Canonical Type Sequence: the sorted
sequence is a pure function of the set of requested types, independent of
registration order. -/
theorem into_batch_order_independence (ts1 ts2 : List TypeInfo)
    (h : List.Perm ts1 ts2) :
    ((addAll ColumnBatchType.new ts1).into_batch).archetype.types =
      ((addAll ColumnBatchType.new ts2).into_batch).archetype.types := by
  show sortTypes (addAll ColumnBatchType.new ts1).types =
    sortTypes (addAll ColumnBatchType.new ts2).types
  apply sortTypes_eq_of_perm
  have h1 := addAll_types_perm ColumnBatchType.new ts1
  have h2 := addAll_types_perm ColumnBatchType.new ts2
  simp only [ColumnBatchType.new, List.append_nil] at h1 h2
  exact h1.trans (h.trans h2.symm)

/-- Witness for C3 at a concrete pair of registration orders. -/
theorem into_batch_order_independence_witness :
    List.Perm [TypeInfo.mk 4, TypeInfo.mk 1] [TypeInfo.mk 1, TypeInfo.mk 4] ∧
    ((addAll ColumnBatchType.new [TypeInfo.mk 4, TypeInfo.mk 1]).into_batch).archetype.types =
      ((addAll ColumnBatchType.new [TypeInfo.mk 1, TypeInfo.mk 4]).into_batch).archetype.types :=
  ⟨by decide, into_batch_order_independence _ _ (by decide)⟩

/-- C5: registering the same type twice performs no deduplication, and
`into_batch` neither collapses nor rejects the duplicates: the Canonical
Type Sequence contains one entry more per extra registration. -/
theorem add_twice_keeps_duplicates (c : ColumnBatchType) (t : TypeInfo) :
    (((c.add t).add t).into_batch).archetype.types.count t =
      c.types.count t + 2 := by
  show (sortTypes (t :: t :: c.types)).count t = c.types.count t + 2
  rw [(sortTypes_perm (t :: t :: c.types)).count_eq]
  simp [List.count_cons]

/-- C10: a batch built from an empty `ColumnBatchType` is constructed
with an empty Canonical Type Sequence, and `storage_for` returns `None`
on it for every component type. -/
theorem empty_batch_all_absent (t : TypeInfo) :
    (ColumnBatchType.new.into_batch).archetype.types = [] ∧
    ((ColumnBatchType.new.into_batch).storage_for t).1 = none := by
  refine ⟨rfl, ?_⟩
  rw [storage_for_fst_none_iff]
  show t ∉ ([] : List TypeInfo)
  simp

/-- C2: on any batch reached from `into_batch` by interface steps,
`storage_for t` returns `None` exactly when `t` was never added to the
originating `ColumnBatchType`, and in that case the batch (hence its
archetype) is unchanged. -/
theorem storage_for_absent_iff (c : ColumnBatchType) (t : TypeInfo)
    (ops : List BatchOp) :
    (((runOps c.into_batch ops).storage_for t).1 = none ↔ t ∉ c.types) ∧
    (((runOps c.into_batch ops).storage_for t).1 = none →
      ((runOps c.into_batch ops).storage_for t).2 = runOps c.into_batch ops) := by
  constructor
  · rw [storage_for_fst_none_iff, runOps_types]
    show t ∉ sortTypes c.types ↔ t ∉ c.types
    rw [not_iff_not]
    exact (sortTypes_perm c.types).mem_iff
  · intro _
    exact storage_for_snd _ t

/-- Witness for C2: on a batch registering only type 0 and then reserving
two slots, `storage_for` for type 1 is absent. -/
theorem storage_for_absent_iff_witness :
    TypeInfo.mk 1 ∉ (ColumnBatchType.new.add (TypeInfo.mk 0)).types ∧
    (((runOps (ColumnBatchType.new.add (TypeInfo.mk 0)).into_batch
        [BatchOp.reserveOp 2]).storage_for (TypeInfo.mk 1)).1 = none) :=
  ⟨by decide,
    (storage_for_absent_iff (ColumnBatchType.new.add (TypeInfo.mk 0))
      (TypeInfo.mk 1) [BatchOp.reserveOp 2]).1.mpr (by decide)⟩

/-- C7: any sequence of interface steps that contains no `set_len` —
reserves, `storage_for` calls and writes through the returned views —
leaves the archetype's logical length unchanged; an abandoned batch has
no observable effect on the logical length. -/
theorem abandoned_batch_len_unchanged (b : ColumnBatch) (ops : List BatchOp)
    (h : ∀ op ∈ ops, op.isSetLen = false) :
    (runOps b ops).archetype.len = b.archetype.len := by
  induction ops generalizing b with
  | nil => rfl
  | cons op ops ih =>
    have hstep : runOps b (op :: ops) = runOps (BatchOp.apply b op) ops := rfl
    rw [hstep, ih _ (fun o ho => h o (List.mem_cons_of_mem _ ho)),
      apply_len _ _ (h op (List.mem_cons_self _ _))]

/-- Witness for C7: reserving, viewing and writing on a concrete batch
leaves its length at 0. -/
theorem abandoned_batch_len_unchanged_witness :
    (∀ op ∈ [BatchOp.reserveOp 3, BatchOp.getStorage (TypeInfo.mk 0),
        BatchOp.writeOp (TypeInfo.mk 0) 0 7], op.isSetLen = false) ∧
    (runOps (ColumnBatch.new (ColumnBatchType.new.add (TypeInfo.mk 0)))
        [BatchOp.reserveOp 3, BatchOp.getStorage (TypeInfo.mk 0),
         BatchOp.writeOp (TypeInfo.mk 0) 0 7]).archetype.len =
      (ColumnBatch.new (ColumnBatchType.new.add (TypeInfo.mk 0))).archetype.len :=
  ⟨by decide, abandoned_batch_len_unchanged _ _ (by decide)⟩

theorem read_set_len (b : ColumnBatch) (n : Nat) (t : TypeInfo) (i : Nat) :
    (b.set_len n).read t i = b.read t i := by
  by_cases h : t ∈ b.archetype.types <;>
    simp [ColumnBatch.read, ColumnBatch.storage_for, ColumnBatch.set_len,
      Archetype.set_len, Archetype.get, Archetype.capacity, h]

/-- C1: if, for every type registered in the batch, the first `n` slots of
its `storage_for` view have been written with values `v 0 .. v (n-1)`,
then `set_len n` makes the archetype report logical length exactly `n`,
and reading slot `i < n` of any registered type's view afterwards returns
exactly the value written for that type. -/
theorem set_len_commits_prefix (b : ColumnBatch) (n : Nat)
    (vals : TypeInfo → Nat → Nat)
    (hw : ∀ t ∈ b.archetype.types, ∀ i < n,
      b.read t i = some (some (vals t i))) :
    (b.set_len n).archetype.len = n ∧
    ∀ t ∈ b.archetype.types, ∀ i < n,
      (b.set_len n).read t i = some (some (vals t i)) := by
  refine ⟨rfl, ?_⟩
  intro t ht i hi
  rw [read_set_len]
  exact hw t ht i hi

/-- Witness for C1: on `batchC1` both columns hold their written prefix;
committing 2 sets the length to 2 and reads return the written values. -/
theorem set_len_commits_prefix_witness :
    (∀ t ∈ batchC1.archetype.types, ∀ i < 2,
      batchC1.read t i = some (some (10 * (t.id + 1) + i))) ∧
    ((batchC1.set_len 2).archetype.len = 2 ∧
      ∀ t ∈ batchC1.archetype.types, ∀ i < 2,
        (batchC1.set_len 2).read t i = some (some (10 * (t.id + 1) + i))) :=
  ⟨by decide,
    set_len_commits_prefix batchC1 2 (fun t i => 10 * (t.id + 1) + i)
      (by decide)⟩

/-- C4: after `reserve n` from length L, capacity is at least L + n, and
every view subsequently returned by `storage_for` has length equal to the
archetype's new capacity — the same value for every registered type. -/
theorem reserve_capacity_contract (b : ColumnBatch) (n : Nat) :
    b.archetype.len + n ≤ (b.reserve n).archetype.capacity ∧
    ∀ t view, ((b.reserve n).storage_for t).1 = some view →
      view.length = (b.reserve n).archetype.capacity := by
  constructor
  · show b.archetype.len + n ≤ max b.archetype.cap (b.archetype.len + n)
    exact Nat.le_max_right _ _
  · intro t view hv
    simp only [ColumnBatch.storage_for] at hv
    split at hv
    · simp at hv
    · simp only at hv
      injection hv with hv
      rw [← hv]
      simp

/-- Witness for C4 at a concrete batch and `n = 3`. -/
theorem reserve_capacity_contract_witness :
    (((ColumnBatch.new (ColumnBatchType.new.add (TypeInfo.mk 0))).reserve
        3).storage_for (TypeInfo.mk 0)).1 = some [none, none, none] ∧
    ([none, none, none] : List (Option Nat)).length =
      ((ColumnBatch.new (ColumnBatchType.new.add
        (TypeInfo.mk 0))).reserve 3).archetype.capacity :=
  ⟨by decide,
    (reserve_capacity_contract _ 3).2 (TypeInfo.mk 0) _ (by decide)⟩

/-- C6 counterexample: `into_batch` performs no lookup of an existing
archetype.  Converting the same `ColumnBatchType` twice yields two
independent archetypes: growing the first to capacity 5 is not reflected
in the second, which is freshly constructed with capacity 0 — not the
same archetype/buffers. -/
theorem into_batch_fresh_cex :
    c6b1.archetype.capacity = 5 ∧ c6b2.archetype.capacity = 0 ∧
    c6b1.archetype ≠ c6b2.archetype := by
  refine ⟨by decide, by decide, ?_⟩
  intro h
  exact absurd (congrArg Archetype.cap h) (by decide)

/-- C6 (amended): `into_batch` is a deterministic pure function of the
registered multiset: two `ColumnBatchType`s holding the same Canonical
Type Sequence convert to structurally equal batches, each wrapping a
freshly constructed archetype (capacity 0, length 0) rather than a
shared, previously existing one. -/
theorem into_batch_deterministic_fresh (c1 c2 : ColumnBatchType)
    (h : List.Perm c1.types c2.types) :
    ColumnBatch.new c1 = ColumnBatch.new c2 ∧
    (ColumnBatch.new c1).archetype.capacity = 0 ∧
    (ColumnBatch.new c1).archetype.len = 0 := by
  refine ⟨?_, rfl, rfl⟩
  show c1.into_batch = c2.into_batch
  unfold ColumnBatchType.into_batch
  rw [sortTypes_eq_of_perm h]

/-- Witness for C6 (amended) at two concrete registration orders. -/
theorem into_batch_deterministic_fresh_witness :
    List.Perm ((ColumnBatchType.new.add (TypeInfo.mk 0)).add
        (TypeInfo.mk 1)).types
      ((ColumnBatchType.new.add (TypeInfo.mk 1)).add (TypeInfo.mk 0)).types ∧
    (ColumnBatch.new ((ColumnBatchType.new.add (TypeInfo.mk 0)).add
        (TypeInfo.mk 1)) =
      ColumnBatch.new ((ColumnBatchType.new.add (TypeInfo.mk 1)).add
        (TypeInfo.mk 0)) ∧
    (ColumnBatch.new ((ColumnBatchType.new.add (TypeInfo.mk 0)).add
        (TypeInfo.mk 1))).archetype.capacity = 0 ∧
    (ColumnBatch.new ((ColumnBatchType.new.add (TypeInfo.mk 0)).add
        (TypeInfo.mk 1))).archetype.len = 0) :=
  ⟨by decide, into_batch_deterministic_fresh _ _ (by decide)⟩

/-- C8 counterexample: `set_len` assigns the length unconditionally, so a
later `set_len` with a smaller argument moves the logical length
backward even though its initialization precondition (first `n` slots
written for every registered type) holds: on `c8b` both slots of the only
column are written, `set_len 2` gives length 2, and a following
`set_len 1` gives length 1 < 2. -/
theorem set_len_can_move_len_backward :
    c8b.archetype.types = [TypeInfo.mk 0] ∧
    c8b.read (TypeInfo.mk 0) 0 = some (some 5) ∧
    c8b.read (TypeInfo.mk 0) 1 = some (some 6) ∧
    (c8b.set_len 2).archetype.len = 2 ∧
    ((c8b.set_len 2).set_len 1).archetype.len = 1 ∧
    ((c8b.set_len 2).set_len 1).archetype.len <
      (c8b.set_len 2).archetype.len := by decide

/-- C8 (amended): reserves, `storage_for` calls and writes never change
the logical length, and `set_len n` sets it to exactly `n`; along any
trace obeying the `lenMono` discipline — every `set_len` argument is at
least the current length, as in the intended create/reserve/write/commit
lifecycle — the logical length never decreases. -/
theorem len_monotone_of_lenMono (b : ColumnBatch) (ops : List BatchOp)
    (h : lenMono b ops = true) :
    b.archetype.len ≤ (runOps b ops).archetype.len := by
  induction ops generalizing b with
  | nil => exact Nat.le_refl _
  | cons op ops ih =>
    have hstep : runOps b (op :: ops) = runOps (BatchOp.apply b op) ops := rfl
    rw [hstep]
    cases op with
    | setLen n =>
      simp only [lenMono, Bool.and_eq_true] at h
      obtain ⟨h1, h2⟩ := h
      refine Nat.le_trans ?_ (ih _ h2)
      simpa [BatchOp.apply, ColumnBatch.set_len, Archetype.set_len] using
        Nat.le_of_ble_eq_true h1
    | reserveOp n =>
      simp only [lenMono, Bool.true_and] at h
      exact Nat.le_trans
        (Nat.le_of_eq (apply_len b (BatchOp.reserveOp n) rfl).symm) (ih _ h)
    | getStorage t =>
      simp only [lenMono, Bool.true_and] at h
      exact Nat.le_trans
        (Nat.le_of_eq (apply_len b (BatchOp.getStorage t) rfl).symm) (ih _ h)
    | writeOp t i v =>
      simp only [lenMono, Bool.true_and] at h
      exact Nat.le_trans
        (Nat.le_of_eq (apply_len b (BatchOp.writeOp t i v) rfl).symm) (ih _ h)

/-- Witness for C8 (amended) on a concrete monotone trace. -/
theorem len_monotone_of_lenMono_witness :
    lenMono (ColumnBatch.new (ColumnBatchType.new.add (TypeInfo.mk 0)))
      [BatchOp.reserveOp 3, BatchOp.setLen 2, BatchOp.setLen 3] = true ∧
    (ColumnBatch.new (ColumnBatchType.new.add
        (TypeInfo.mk 0))).archetype.len ≤
      (runOps (ColumnBatch.new (ColumnBatchType.new.add (TypeInfo.mk 0)))
        [BatchOp.reserveOp 3, BatchOp.setLen 2,
         BatchOp.setLen 3]).archetype.len :=
  ⟨by decide, len_monotone_of_lenMono _ _ (by decide)⟩
